import Mathlib

/-!
# minipol/myfunc.c : the paraboloid objective and the driver loop of `my_optimize`

A shallow embedding of `src/minipol/myfunc.c`.

* C `double` is an arbitrary scalar type `α` carrying the operations the source
  uses (`+`, `-`, `*` and decimal literals).  The definitions are computable
  for every such `α`; theorems about exact real arithmetic take `α := ℝ`,
  concrete evaluations take `α := ℚ`, and evaluations with the rounding of the
  machine take `α := Double`, a model of IEEE 754 binary64.
* A `gsl_vector` is the list of its components; reading or writing an index
  outside the vector has no result (`none`).
* The objective callbacks work on the objects behind their pointer arguments;
  these objects are gathered in `Mem` and passed explicitly.
* The GSL minimizer (`gsl_multimin_fdfminimizer_*`, `gsl_multimin_test_gradient`)
  is not part of the file; it is a parameter (`Lib`) of the driver.
-/

namespace Minipol

/-! ## GSL vectors -/

/-- The components of a `gsl_vector`. -/
structure gsl_vector (α : Type) where
  data : List α
deriving DecidableEq

/-- The field `size` of a `gsl_vector`. -/
def gsl_vector.size {α : Type} (v : gsl_vector α) : Nat := v.data.length

/-- The call `gsl_vector_get(v, i)`: component `i`, no result when `i` is out of range. -/
def gsl_vector_get {α : Type} (v : gsl_vector α) (i : Nat) : Option α := v.data[i]?

/-- The call `gsl_vector_set(v, i, x)`: the vector with component `i` replaced by `x`,
no result when `i` is out of range. -/
def gsl_vector_set {α : Type} (v : gsl_vector α) (i : Nat) (x : α) : Option (gsl_vector α) :=
  if i < v.data.length then some ⟨v.data.set i x⟩ else none

/-! ## The objective callbacks (lines 6-38) -/

/-- The objects reachable through the pointer arguments of the callbacks:
`v` behind `const gsl_vector *v` (named `x` in `my_fdf`), `params` the block of doubles
behind `void *params`, `f` the cell behind `double *f`, `df` behind `gsl_vector *df`; they are
four separate objects. -/
structure Mem (α : Type) where
  v : gsl_vector α
  params : List α
  f : α
  df : gsl_vector α
deriving DecidableEq

section callbacks

variable {α : Type} [Add α] [Sub α] [Mul α] [OfScientific α]

/-- Lines 9-18, `double my_f(const gsl_vector *v, void *params)`: the returned value
together with the memory after the call. -/
def my_f (mem : Mem α) : Option (α × Mem α) := do
  let p := mem.params
  let x ← gsl_vector_get mem.v 0
  let y ← gsl_vector_get mem.v 1
  let p2 ← p[2]?
  let p0 ← p[0]?
  let p3 ← p[3]?
  let p1 ← p[1]?
  let p4 ← p[4]?
  pure (p2 * (x - p0) * (x - p0) + p3 * (y - p1) * (y - p1) + p4, mem)

/-- Lines 21-31, `void my_df(const gsl_vector *v, void *params, gsl_vector *df)`:
the memory after the call. -/
def my_df (mem : Mem α) : Option (Mem α) := do
  let p := mem.params
  let x ← gsl_vector_get mem.v 0
  let y ← gsl_vector_get mem.v 1
  let p2 ← p[2]?
  let p0 ← p[0]?
  let df1 ← gsl_vector_set mem.df 0 (2.0 * p2 * (x - p0))
  let p3 ← p[3]?
  let p1 ← p[1]?
  let df2 ← gsl_vector_set df1 1 (2.0 * p3 * (y - p1))
  pure { mem with df := df2 }

/-- Lines 34-38, `void my_fdf(const gsl_vector *x, void *params, double *f, gsl_vector *df)`:
`*f = my_f(x, params); my_df(x, params, df);`. -/
def my_fdf (mem : Mem α) : Option (Mem α) := do
  let (val, mem1) ← my_f mem
  let mem2 := { mem1 with f := val }
  my_df mem2

end callbacks

/-! ## The driver `my_optimize` (lines 43-85) -/

/-- The status `GSL_SUCCESS` of GSL's `gsl_errno.h`. -/
def GSL_SUCCESS : Int := 0

/-- The status `GSL_CONTINUE` of GSL's `gsl_errno.h`. -/
def GSL_CONTINUE : Int := -2

/-- The exit code `EXIT_SUCCESS` of `stdlib.h`. -/
def EXIT_SUCCESS : Int := 0

/-- The record `gsl_multimin_function_fdf` filled in lines 52-56. -/
structure gsl_multimin_function_fdf (α : Type) where
  f : Mem α → Option (α × Mem α)
  df : Mem α → Option (Mem α)
  fdf : Mem α → Option (Mem α)
  n : Nat
  params : List α

/-- The minimizer object `gsl_multimin_fdfminimizer`: the three fields the driver reads
(`s->x`, `s->f`, `s->gradient`) and the rest of the object, `state`, of a type `τ` left to
the library. -/
structure gsl_multimin_fdfminimizer (α τ : Type) where
  x : gsl_vector α
  f : α
  gradient : gsl_vector α
  state : τ

/-- The GSL functions the driver calls, for a fixed minimizer type `T`
(`gsl_multimin_fdfminimizer_conjugate_fr` in line 59).  Each is an arbitrary function of
its arguments:
* `alloc n` is `gsl_multimin_fdfminimizer_alloc(T, n)`;
* `set s fdf x step_size tol` is the minimizer after `gsl_multimin_fdfminimizer_set`,
  which receives `x` as `const gsl_vector *`;
* `iterate s` is the status `gsl_multimin_fdfminimizer_iterate(s)` returns and the
  minimizer after the call;
* `test_gradient g epsabs` is the status `gsl_multimin_test_gradient(g, epsabs)` returns. -/
structure Lib (α τ : Type) where
  alloc : Nat → gsl_multimin_fdfminimizer α τ
  set : gsl_multimin_fdfminimizer α τ → gsl_multimin_function_fdf α → gsl_vector α →
    α → α → gsl_multimin_fdfminimizer α τ
  iterate : gsl_multimin_fdfminimizer α τ → Int × gsl_multimin_fdfminimizer α τ
  test_gradient : gsl_vector α → α → Int

/-- What the loop does that is visible from outside, in order: the library calls with the
status each returned, and the two `printf` calls (lines 74 and 76-79). -/
inductive Event (α : Type) where
  | iterate (status : Int)
  | test_gradient (status : Int)
  | printf_found
  | printf_row (iter : Int) (x0 x1 : Option α) (f : α)
deriving DecidableEq

/-- The local variables of `my_optimize` after the loop, and the events so far. -/
structure Loop (α τ : Type) where
  iter : Int
  status : Int
  s : gsl_multimin_fdfminimizer α τ
  out : List (Event α)

section driver

variable {α τ : Type} [Add α] [Sub α] [Mul α] [OfScientific α]

/-- Lines 64-81, the `do { ... } while (status == GSL_CONTINUE && iter < 100);` loop,
entered with the counter at `iter`, the minimizer `s` and the events `out` so far
(`status` is assigned in the body before it is read). -/
def my_optimize_loop (lib : Lib α τ) (iter : Int) (s : gsl_multimin_fdfminimizer α τ)
    (out : List (Event α)) : Loop α τ :=
  let iter1 := iter + 1
  let r := lib.iterate s
  let status := r.1
  let s1 := r.2
  let out1 := out ++ [Event.iterate status]
  if status ≠ 0 then
    ⟨iter1, status, s1, out1⟩
  else
    let status2 := lib.test_gradient s1.gradient 1e-3
    let out2 := out1 ++ [Event.test_gradient status2]
    let out3 := if status2 = GSL_SUCCESS then out2 ++ [Event.printf_found] else out2
    let out4 := out3 ++
      [Event.printf_row iter1 (gsl_vector_get s1.x 0) (gsl_vector_get s1.x 1) s1.f]
    if status2 = GSL_CONTINUE ∧ iter1 < 100 then
      my_optimize_loop lib iter1 s1 out4
    else
      ⟨iter1, status2, s1, out4⟩
termination_by (100 - iter).toNat
decreasing_by
  simp_wf
  omega

/-- Lines 52-56: the record `my_func` for the parameter block `par`. -/
def my_func (par : List α) : gsl_multimin_function_fdf α :=
  { n := 2, f := my_f, df := my_df, fdf := my_fdf, params := par }

/-- The state when `my_optimize` returns: the returned `int`, the caller's parameter block
and vector after the call, and the local variables at line 83 (the minimizer in `locals`
is freed there, the status in `locals` is not used again). -/
structure Result (α τ : Type) where
  ret : Int
  par : List α
  x : gsl_vector α
  locals : Loop α τ

/-- Lines 43-85, `int my_optimize(double *par, gsl_vector *x)`.  The only use of `x` is as
the `const` argument of `gsl_multimin_fdfminimizer_set`, and `par` is only stored in
`my_func.params`; the minimizer is freed in line 83 and line 84 returns `EXIT_SUCCESS`. -/
def my_optimize (lib : Lib α τ) (par : List α) (x : gsl_vector α) : Result α τ :=
  let s := lib.alloc 2
  let s := lib.set s (my_func par) x 0.01 1e-4
  let r := my_optimize_loop lib 0 s []
  ⟨EXIT_SUCCESS, par, x, r⟩

end driver

/-! ## Reading a run: the calls of a trace and the first terminal round -/

section trace

variable {α τ : Type}

/-- An event that is a call of `gsl_multimin_fdfminimizer_iterate`. -/
def Event.isIterate : Event α → Bool
  | Event.iterate _ => true
  | _ => false

/-- An event that is a call of `gsl_multimin_test_gradient`. -/
def Event.isTest : Event α → Bool
  | Event.test_gradient _ => true
  | _ => false

/-- The number of iterate calls in a trace: the iterations performed. -/
def iterateCalls (out : List (Event α)) : Nat := out.countP Event.isIterate

/-- The number of gradient tests in a trace. -/
def testCalls (out : List (Event α)) : Nat := out.countP Event.isTest

/-- The library calls of a trace, in order, without the `printf` events. -/
def calls (out : List (Event α)) : List (Event α) :=
  out.filter (fun e => e.isIterate || e.isTest)

/-- The minimizer after `j` calls of iterate, starting from `s`. -/
def stateAfter (lib : Lib α τ) (s : gsl_multimin_fdfminimizer α τ) :
    Nat → gsl_multimin_fdfminimizer α τ
  | 0 => s
  | j + 1 => (lib.iterate (stateAfter lib s j)).2

/-- The status the `j`-th call of iterate returns (`j` counted from 1). -/
def iterStatus (lib : Lib α τ) (s : gsl_multimin_fdfminimizer α τ) (j : Nat) : Int :=
  (lib.iterate (stateAfter lib s (j - 1))).1

/-- The status of the gradient test on the minimizer after the `j`-th call of iterate. -/
def testStatus [OfScientific α] (lib : Lib α τ) (s : gsl_multimin_fdfminimizer α τ)
    (j : Nat) : Int :=
  lib.test_gradient (stateAfter lib s j).gradient 1e-3

/-- Round `j` is terminal: its iterate returns a nonzero status or its gradient test a
status other than `GSL_CONTINUE`. -/
def terminalAt [OfScientific α] (lib : Lib α τ) (s : gsl_multimin_fdfminimizer α τ)
    (j : Nat) : Bool :=
  iterStatus lib s j != 0 || testStatus lib s j != GSL_CONTINUE

/-- The least index in `1..100` at which the round is terminal, `100` if there is none. -/
def stopIndex [OfScientific α] (lib : Lib α τ) (s : gsl_multimin_fdfminimizer α τ) : Nat :=
  ((List.range' 1 100).find? (terminalAt lib s)).getD 100

/-- The calls of `n` rounds none of which is terminal. -/
def quietCalls (α : Type) : Nat → List (Event α)
  | 0 => []
  | n + 1 => quietCalls α n ++ [Event.iterate 0, Event.test_gradient GSL_CONTINUE]

end trace

/-! ## C doubles: IEEE 754 binary64 with rounding to nearest, ties to even -/

/-- A binary64 value: not-a-number, an infinity, or the finite value `±m * 2^e`.  The
values the operations below produce are in the form of the format: `m < 2^53` and
`-1074 ≤ e ≤ 971`, with `2^52 ≤ m` (normal) unless `e = -1074` (subnormal, or zero when
`m = 0`). -/
inductive Double where
  | nan
  | inf (neg : Bool)
  | fin (neg : Bool) (m : Nat) (e : Int)
deriving DecidableEq

/-- The number of binary digits of `m` (at most `fuel` of them are counted; `fuel := m`
is always enough). -/
def Double.bitLength : Nat → Nat → Nat
  | 0, _ => 0
  | fuel + 1, m => if m = 0 then 0 else Double.bitLength fuel (m / 2) + 1

/-- The value `±m * 2^e` with `m ≤ 2^53` put in the form of the format: a significand
that reached `2^53` is renormalised, an exponent above 971 overflows to infinity. -/
def Double.pack (neg : Bool) (m : Nat) (e : Int) : Double :=
  if m = 2 ^ 53 then
    if 971 < e + 1 then Double.inf neg else Double.fin neg (2 ^ 52) (e + 1)
  else if 971 < e then Double.inf neg
  else Double.fin neg m e

/-- The binary64 value nearest to the exact value `±m * 2^e`, ties going to the even
significand: the significand is cut to 53 binary digits (fewer in the subnormal range,
where the exponent stays at -1074). -/
def Double.round (neg : Bool) (m : Nat) (e : Int) : Double :=
  if m = 0 then Double.fin neg 0 (-1074)
  else
    let shift : Int := max ((Double.bitLength m m : Int) - 53) (-1074 - e)
    if shift ≤ 0 then
      Double.pack neg (m * 2 ^ (-shift).toNat) (e + shift)
    else
      let k : Nat := shift.toNat
      let q : Nat := m / 2 ^ k
      let r : Nat := m % 2 ^ k
      let half : Nat := 2 ^ (k - 1)
      let q1 : Nat := if half < r ∨ (r = half ∧ q % 2 = 1) then q + 1 else q
      Double.pack neg q1 (e + shift)

/-- The integer `±m * 2^k`. -/
def Double.signed (neg : Bool) (m : Nat) (k : Nat) : Int :=
  if neg then -((m * 2 ^ k : Nat) : Int) else ((m * 2 ^ k : Nat) : Int)

/-- Unary minus: the sign is flipped. -/
def Double.neg : Double → Double
  | Double.nan => Double.nan
  | Double.inf s => Double.inf (!s)
  | Double.fin s m e => Double.fin (!s) m e

/-- Addition: the exact sum, rounded; opposite infinities give not-a-number; an exact
zero sum is `+0` unless both operands are negative (zeros). -/
def Double.add : Double → Double → Double
  | Double.nan, _ => Double.nan
  | _, Double.nan => Double.nan
  | Double.inf a, Double.inf b => if a = b then Double.inf a else Double.nan
  | Double.inf a, Double.fin _ _ _ => Double.inf a
  | Double.fin _ _ _, Double.inf b => Double.inf b
  | Double.fin s1 m1 e1, Double.fin s2 m2 e2 =>
    if m1 = 0 ∧ m2 = 0 then Double.fin (s1 && s2) 0 (-1074)
    else if m1 = 0 then Double.fin s2 m2 e2
    else if m2 = 0 then Double.fin s1 m1 e1
    else
      let e : Int := min e1 e2
      let c : Int := Double.signed s1 m1 (e1 - e).toNat + Double.signed s2 m2 (e2 - e).toNat
      if c = 0 then Double.fin false 0 (-1074)
      else Double.round (decide (c < 0)) c.natAbs e

/-- Multiplication: the exact product, rounded; zero times infinity is not-a-number. -/
def Double.mul : Double → Double → Double
  | Double.nan, _ => Double.nan
  | _, Double.nan => Double.nan
  | Double.inf a, Double.inf b => Double.inf (xor a b)
  | Double.inf a, Double.fin s m _ => if m = 0 then Double.nan else Double.inf (xor a s)
  | Double.fin s m _, Double.inf b => if m = 0 then Double.nan else Double.inf (xor s b)
  | Double.fin s1 m1 e1, Double.fin s2 m2 e2 => Double.round (xor s1 s2) (m1 * m2) (e1 + e2)

instance : Add Double := ⟨Double.add⟩

instance : Sub Double := ⟨fun a b => Double.add a (Double.neg b)⟩

instance : Mul Double := ⟨Double.mul⟩

instance (n : Nat) : OfNat Double n := ⟨Double.round false n 0⟩

/-! ## Four small libraries, for concrete runs -/

/-- A library whose iterate fails at once with status 27 (`GSL_ENOPROG`) and leaves the
minimizer as it was; `set` copies the starting point into the minimizer. -/
def failLib : Lib ℚ Unit where
  alloc n := ⟨⟨List.replicate n 0⟩, 0, ⟨List.replicate n 0⟩, ()⟩
  set s _ x _ _ := ⟨x, s.f, s.gradient, ()⟩
  iterate s := (27, s)
  test_gradient _ _ := GSL_CONTINUE

/-- A library whose iterate moves the minimizer to the point `(1, 2)` with value 5 and
gradient `(0, 0)`, and whose gradient test succeeds on a zero gradient; `set` copies the
starting point into the minimizer. -/
def jumpLib : Lib ℚ Unit where
  alloc n := ⟨⟨List.replicate n 0⟩, 0, ⟨List.replicate n 1⟩, ()⟩
  set s _ x _ _ := ⟨x, s.f, s.gradient, ()⟩
  iterate _ := (0, ⟨⟨[1, 2]⟩, 5, ⟨[0, 0]⟩, ()⟩)
  test_gradient g _ := if g = ⟨[0, 0]⟩ then GSL_SUCCESS else GSL_CONTINUE

/-- A library whose iterate always succeeds without moving and whose gradient test never
reports convergence; `set` copies the starting point into the minimizer. -/
def stallLib : Lib ℚ Unit where
  alloc n := ⟨⟨List.replicate n 0⟩, 0, ⟨List.replicate n 1⟩, ()⟩
  set s _ x _ _ := ⟨x, s.f, s.gradient, ()⟩
  iterate s := (0, s)
  test_gradient _ _ := GSL_CONTINUE

/-- A library whose gradient test succeeds on a zero gradient, as the test of GSL does,
and whose iterate always succeeds but makes no progress: it counts the call in `state`
and leaves point, value and gradient as they are.  The gradient after `alloc` and `set`
is `(1, 1)`. -/
def slowLib : Lib ℚ Nat where
  alloc n := ⟨⟨List.replicate n 0⟩, 0, ⟨List.replicate n 1⟩, 0⟩
  set s _ x _ _ := ⟨x, s.f, s.gradient, 0⟩
  iterate s := (0, ⟨s.x, s.f, s.gradient, s.state + 1⟩)
  test_gradient g _ := if g = ⟨[0, 0]⟩ then GSL_SUCCESS else GSL_CONTINUE

/-! ## The callbacks: shape lemmas -/

section callback_lemmas

variable {α : Type}

/-- A vector with at least two components starts with them. -/
theorem gsl_vector.two_le_size {β : Type} (v : gsl_vector β) (h : 2 ≤ v.size) :
    ∃ x y rest, v = ⟨x :: y :: rest⟩ := by
  obtain ⟨d⟩ := v
  rcases d with _ | ⟨x, _ | ⟨y, rest⟩⟩
  · simp [gsl_vector.size] at h
  · simp [gsl_vector.size] at h
  · exact ⟨x, y, rest, rfl⟩

/-- A block with at least five entries starts with them. -/
theorem five_le_length {β : Type} (p : List β) (h : 5 ≤ p.length) :
    ∃ p0 p1 p2 p3 p4 rest, p = p0 :: p1 :: p2 :: p3 :: p4 :: rest := by
  rcases p with _ | ⟨p0, _ | ⟨p1, _ | ⟨p2, _ | ⟨p3, _ | ⟨p4, rest⟩⟩⟩⟩⟩
  all_goals first
    | exact ⟨_, _, _, _, _, _, rfl⟩
    | simp at h

/-- The value of `my_f` on a point and a block given by their leading entries. -/
theorem my_f_cons [Add α] [Sub α] [Mul α] (x y : α) (vr : List α) (p0 p1 p2 p3 p4 : α)
    (pr : List α) (f : α) (df : gsl_vector α) :
    my_f (⟨⟨x :: y :: vr⟩, p0 :: p1 :: p2 :: p3 :: p4 :: pr, f, df⟩ : Mem α) =
      some (p2 * (x - p0) * (x - p0) + p3 * (y - p1) * (y - p1) + p4,
        ⟨⟨x :: y :: vr⟩, p0 :: p1 :: p2 :: p3 :: p4 :: pr, f, df⟩) := by
  simp [my_f, gsl_vector_get]

/-- The memory after `my_df` when the gradient vector has at least two components. -/
theorem my_df_cons [Sub α] [Mul α] [OfScientific α] (x y : α) (vr : List α)
    (p0 p1 p2 p3 p4 : α) (pr : List α) (f : α) (d0 d1 : α) (dr : List α) :
    my_df (⟨⟨x :: y :: vr⟩, p0 :: p1 :: p2 :: p3 :: p4 :: pr, f, ⟨d0 :: d1 :: dr⟩⟩ :
        Mem α) =
      some ⟨⟨x :: y :: vr⟩, p0 :: p1 :: p2 :: p3 :: p4 :: pr, f,
        ⟨2.0 * p2 * (x - p0) :: 2.0 * p3 * (y - p1) :: dr⟩⟩ := by
  simp [my_df, gsl_vector_get, gsl_vector_set]

/-- The call `my_df` has no result when the gradient vector has fewer than two components. -/
theorem my_df_short [Sub α] [Mul α] [OfScientific α] (mem : Mem α)
    (h : mem.df.size < 2) : my_df mem = none := by
  obtain ⟨v, p, f, ⟨dfd⟩⟩ := mem
  rcases dfd with _ | ⟨d0, _ | ⟨d1, dr⟩⟩
  · simp [my_df, gsl_vector_set]
  · simp [my_df, gsl_vector_set]
  · simp [gsl_vector.size] at h
    omega

end callback_lemmas

/-! ## The callbacks: the claims -/

/-- C1: for a point with at least two components and a block with at least five entries,
`my_fdf` stores in `*f` exactly the value `my_f` returns and leaves in `df` exactly what
`my_df` writes; it has a result exactly when `my_df` has one, which is the case when `df`
has at least two components. -/
theorem my_fdf_consistent {α : Type} [Add α] [Sub α] [Mul α] [OfScientific α] (mem : Mem α)
    (hv : 2 ≤ mem.v.size) (hp : 5 ≤ mem.params.length) :
    ∃ val, my_f mem = some (val, mem) ∧
      my_fdf mem = (my_df mem).map (fun m => { m with f := val }) ∧
      (2 ≤ mem.df.size →
        ∃ m, my_df mem = some m ∧ my_fdf mem = some { m with f := val }) := by
  obtain ⟨v, p, f, df⟩ := mem
  obtain ⟨x, y, vr, rfl⟩ := gsl_vector.two_le_size v hv
  obtain ⟨p0, p1, p2, p3, p4, pr, rfl⟩ := five_le_length p hp
  refine ⟨_, my_f_cons x y vr p0 p1 p2 p3 p4 pr f df, ?_, ?_⟩
  · by_cases hdf : 2 ≤ df.size
    · obtain ⟨d0, d1, dr, rfl⟩ := gsl_vector.two_le_size df hdf
      simp [my_fdf, my_f_cons, my_df_cons]
    · have h1 := my_df_short
        (⟨⟨x :: y :: vr⟩, p0 :: p1 :: p2 :: p3 :: p4 :: pr, f, df⟩ : Mem α)
        (by simpa using hdf)
      have h2 := my_df_short (⟨⟨x :: y :: vr⟩, p0 :: p1 :: p2 :: p3 :: p4 :: pr,
        p2 * (x - p0) * (x - p0) + p3 * (y - p1) * (y - p1) + p4, df⟩ : Mem α)
        (by simpa using hdf)
      simp [my_fdf, my_f_cons, h1, h2]
  · intro hdf
    obtain ⟨d0, d1, dr, rfl⟩ := gsl_vector.two_le_size df hdf
    simp [my_fdf, my_f_cons, my_df_cons]

/-- Witness of C1 at the point `(0, 0)` and the block `(1, 2, 3, 4, 5)` over `ℚ`. -/
theorem my_fdf_consistent_witness :
    2 ≤ (⟨⟨[0, 0]⟩, [1, 2, 3, 4, 5], 0, ⟨[0, 0]⟩⟩ : Mem ℚ).v.size ∧
    5 ≤ (⟨⟨[0, 0]⟩, [1, 2, 3, 4, 5], 0, ⟨[0, 0]⟩⟩ : Mem ℚ).params.length ∧
    ∃ val, my_f (⟨⟨[0, 0]⟩, [1, 2, 3, 4, 5], 0, ⟨[0, 0]⟩⟩ : Mem ℚ) =
        some (val, ⟨⟨[0, 0]⟩, [1, 2, 3, 4, 5], 0, ⟨[0, 0]⟩⟩) ∧
      my_fdf (⟨⟨[0, 0]⟩, [1, 2, 3, 4, 5], 0, ⟨[0, 0]⟩⟩ : Mem ℚ) =
        (my_df (⟨⟨[0, 0]⟩, [1, 2, 3, 4, 5], 0, ⟨[0, 0]⟩⟩ : Mem ℚ)).map
          (fun m => { m with f := val }) ∧
      (2 ≤ (⟨⟨[0, 0]⟩, [1, 2, 3, 4, 5], 0, ⟨[0, 0]⟩⟩ : Mem ℚ).df.size →
        ∃ m, my_df (⟨⟨[0, 0]⟩, [1, 2, 3, 4, 5], 0, ⟨[0, 0]⟩⟩ : Mem ℚ) = some m ∧
          my_fdf (⟨⟨[0, 0]⟩, [1, 2, 3, 4, 5], 0, ⟨[0, 0]⟩⟩ : Mem ℚ) =
            some { m with f := val }) :=
  ⟨by decide, by decide, my_fdf_consistent _ (by decide) (by decide)⟩

/-- C3: over the reals, for the point `(x, y)` and the block `(cx, cy, a, b, m)`, `my_f`
returns `a*(x-cx)^2 + b*(y-cy)^2 + m` (and leaves the memory as it was). -/
theorem my_f_paraboloid (x y cx cy a b m f : ℝ) (df : gsl_vector ℝ) :
    my_f (⟨⟨[x, y]⟩, [cx, cy, a, b, m], f, df⟩ : Mem ℝ) =
      some (a * (x - cx) ^ 2 + b * (y - cy) ^ 2 + m,
        ⟨⟨[x, y]⟩, [cx, cy, a, b, m], f, df⟩) := by
  rw [my_f_cons]
  congr 2
  ring

/-- C2: over the reals, for the point `(x, y)` and the block `(cx, cy, a, b, m)`, `my_df`
writes `2*a*(x-cx)` and `2*b*(y-cy)` into components 0 and 1 of `df`, and these are the
derivatives of the value of `my_f` in `x` (at fixed `y`) and in `y` (at fixed `x`). -/
theorem my_df_is_gradient (x y cx cy a b m f d0 d1 : ℝ) (dr : List ℝ) :
    my_df (⟨⟨[x, y]⟩, [cx, cy, a, b, m], f, ⟨d0 :: d1 :: dr⟩⟩ : Mem ℝ) =
        some ⟨⟨[x, y]⟩, [cx, cy, a, b, m], f,
          ⟨2 * a * (x - cx) :: 2 * b * (y - cy) :: dr⟩⟩ ∧
      HasDerivAt
        (fun t : ℝ =>
          ((my_f (⟨⟨[t, y]⟩, [cx, cy, a, b, m], f, ⟨d0 :: d1 :: dr⟩⟩ : Mem ℝ)).map
            Prod.fst).getD 0)
        (2 * a * (x - cx)) x ∧
      HasDerivAt
        (fun t : ℝ =>
          ((my_f (⟨⟨[x, t]⟩, [cx, cy, a, b, m], f, ⟨d0 :: d1 :: dr⟩⟩ : Mem ℝ)).map
            Prod.fst).getD 0)
        (2 * b * (y - cy)) y := by
  refine ⟨?_, ?_, ?_⟩
  · rw [my_df_cons]
    norm_num
  · simp only [my_f_cons, Option.map_some', Option.getD_some]
    have h1 : HasDerivAt (fun t : ℝ => t - cx) 1 x := (hasDerivAt_id x).sub_const cx
    have h2 := (((h1.const_mul a).mul h1).add_const (b * (y - cy) * (y - cy))).add_const m
    convert h2 using 1
    ring
  · simp only [my_f_cons, Option.map_some', Option.getD_some]
    have h1 : HasDerivAt (fun t : ℝ => t - cy) 1 y := (hasDerivAt_id y).sub_const cy
    have h2 := (((h1.const_mul b).mul h1).const_add (a * (x - cx) * (x - cx))).add_const m
    convert h2 using 1
    ring

/-- Rounding in `Double`: `2^53 + 1` and `2^53 + 3` lie halfway between neighbours and go
to the even significand, `2^-1075` goes to zero and `3 * 2^-1075` to `2^-1073`, and the
largest finite value plus half a unit in its last place overflows. -/
theorem Double.round_examples :
    Double.round false (2 ^ 53 + 1) 0 = Double.fin false (2 ^ 52) 1 ∧
    Double.round false (2 ^ 53 + 3) 0 = Double.fin false (2 ^ 52 + 2) 1 ∧
    Double.round false 1 (-1075) = Double.fin false 0 (-1074) ∧
    Double.round false 3 (-1075) = Double.fin false 2 (-1074) ∧
    Double.round false (2 ^ 54 - 1) 970 = Double.inf false ∧
    (1 : Double) = Double.fin false (2 ^ 52) (-52) ∧
    (5 : Double) = Double.fin false (5 * 2 ^ 50) (-50) := by
  decide

section double_evaluation

set_option maxRecDepth 20000

end double_evaluation

/-- C8: on a point with at least two components, a block with at least five entries and a
gradient vector with at least two components, `my_f` returns with the memory as it was,
`my_df` changes only `df`, `my_fdf` changes only `df` and the cell `f`, and the `df` they
leave has its size and all components from index 2 on as before. -/
theorem callbacks_frame {α : Type} [Add α] [Sub α] [Mul α] [OfScientific α] (mem : Mem α)
    (hv : 2 ≤ mem.v.size) (hp : 5 ≤ mem.params.length) (hdf : 2 ≤ mem.df.size) :
    ∃ val g, my_f mem = some (val, mem) ∧
      my_df mem = some ⟨mem.v, mem.params, mem.f, g⟩ ∧
      my_fdf mem = some ⟨mem.v, mem.params, val, g⟩ ∧
      g.size = mem.df.size ∧
      ∀ i, 2 ≤ i → gsl_vector_get g i = gsl_vector_get mem.df i := by
  obtain ⟨v, p, f, df⟩ := mem
  obtain ⟨x, y, vr, rfl⟩ := gsl_vector.two_le_size v hv
  obtain ⟨p0, p1, p2, p3, p4, pr, rfl⟩ := five_le_length p hp
  obtain ⟨d0, d1, dr, rfl⟩ := gsl_vector.two_le_size df hdf
  refine ⟨_, _, my_f_cons _ _ _ _ _ _ _ _ _ _ _, my_df_cons _ _ _ _ _ _ _ _ _ _ _ _ _,
    ?_, ?_, ?_⟩
  · simp [my_fdf, my_f_cons, my_df_cons]
  · simp [gsl_vector.size]
  · intro i hi
    obtain ⟨j, rfl⟩ : ∃ j, i = j + 2 := ⟨i - 2, by omega⟩
    simp [gsl_vector_get]

/-- Witness of C8 at the point `(0, 0)`, the block `(1, 2, 3, 4, 5)` and a gradient
vector of three components, over `ℚ`. -/
theorem callbacks_frame_witness :
    2 ≤ (⟨⟨[0, 0]⟩, [1, 2, 3, 4, 5], 7, ⟨[8, 9, 10]⟩⟩ : Mem ℚ).v.size ∧
    5 ≤ (⟨⟨[0, 0]⟩, [1, 2, 3, 4, 5], 7, ⟨[8, 9, 10]⟩⟩ : Mem ℚ).params.length ∧
    2 ≤ (⟨⟨[0, 0]⟩, [1, 2, 3, 4, 5], 7, ⟨[8, 9, 10]⟩⟩ : Mem ℚ).df.size ∧
    ∃ val g, my_f (⟨⟨[0, 0]⟩, [1, 2, 3, 4, 5], 7, ⟨[8, 9, 10]⟩⟩ : Mem ℚ) =
        some (val, ⟨⟨[0, 0]⟩, [1, 2, 3, 4, 5], 7, ⟨[8, 9, 10]⟩⟩) ∧
      my_df (⟨⟨[0, 0]⟩, [1, 2, 3, 4, 5], 7, ⟨[8, 9, 10]⟩⟩ : Mem ℚ) =
        some ⟨⟨[0, 0]⟩, [1, 2, 3, 4, 5], 7, g⟩ ∧
      my_fdf (⟨⟨[0, 0]⟩, [1, 2, 3, 4, 5], 7, ⟨[8, 9, 10]⟩⟩ : Mem ℚ) =
        some ⟨⟨[0, 0]⟩, [1, 2, 3, 4, 5], val, g⟩ ∧
      g.size = 3 ∧
      ∀ i, 2 ≤ i →
        gsl_vector_get g i = gsl_vector_get (⟨[8, 9, 10]⟩ : gsl_vector ℚ) i :=
  ⟨by decide, by decide, by decide, callbacks_frame _ (by decide) (by decide) (by decide)⟩

/-! ## The driver: how the loop unfolds -/

section loop_lemmas

variable {α τ : Type} [OfScientific α]

/-- The loop when the iterate call fails: it stops at once (line 69). -/
theorem my_optimize_loop_break (lib : Lib α τ) (iter : Int) (s : gsl_multimin_fdfminimizer α τ)
    (out : List (Event α)) (h : (lib.iterate s).1 ≠ 0) :
    my_optimize_loop lib iter s out =
      ⟨iter + 1, (lib.iterate s).1, (lib.iterate s).2,
        out ++ [Event.iterate (lib.iterate s).1]⟩ := by
  rw [my_optimize_loop]
  simp [h]

/-- The loop when the round is not terminal and the counter is below 100 after it. -/
theorem my_optimize_loop_continue (lib : Lib α τ) (iter : Int)
    (s : gsl_multimin_fdfminimizer α τ) (out : List (Event α)) (h : (lib.iterate s).1 = 0)
    (ht : lib.test_gradient (lib.iterate s).2.gradient 1e-3 = GSL_CONTINUE)
    (hi : iter + 1 < 100) :
    my_optimize_loop lib iter s out =
      my_optimize_loop lib (iter + 1) (lib.iterate s).2
        (out ++ [Event.iterate 0, Event.test_gradient GSL_CONTINUE,
          Event.printf_row (iter + 1) (gsl_vector_get (lib.iterate s).2.x 0)
            (gsl_vector_get (lib.iterate s).2.x 1) (lib.iterate s).2.f]) := by
  rw [my_optimize_loop]
  simp [h, ht, hi, GSL_CONTINUE, GSL_SUCCESS]

/-- The loop when the iterate call succeeds and the `while` condition fails. -/
theorem my_optimize_loop_exit (lib : Lib α τ) (iter : Int) (s : gsl_multimin_fdfminimizer α τ)
    (out : List (Event α)) (h : (lib.iterate s).1 = 0)
    (hc : ¬ (lib.test_gradient (lib.iterate s).2.gradient 1e-3 = GSL_CONTINUE ∧
      iter + 1 < 100)) :
    ∃ out1, my_optimize_loop lib iter s out =
        ⟨iter + 1, lib.test_gradient (lib.iterate s).2.gradient 1e-3, (lib.iterate s).2,
          out ++ out1⟩ ∧
      calls out1 = [Event.iterate 0,
        Event.test_gradient (lib.test_gradient (lib.iterate s).2.gradient 1e-3)] ∧
      (Event.printf_found ∈ out1 ↔
        lib.test_gradient (lib.iterate s).2.gradient 1e-3 = GSL_SUCCESS) ∧
      out1.getLast? = some (Event.printf_row (iter + 1) (gsl_vector_get (lib.iterate s).2.x 0)
        (gsl_vector_get (lib.iterate s).2.x 1) (lib.iterate s).2.f) := by
  rw [my_optimize_loop]
  simp only [h, ne_eq, not_true_eq_false, if_false, if_neg hc]
  by_cases hs : lib.test_gradient (lib.iterate s).2.gradient 1e-3 = GSL_SUCCESS
  · refine ⟨[Event.iterate 0,
      Event.test_gradient (lib.test_gradient (lib.iterate s).2.gradient 1e-3),
      Event.printf_found,
      Event.printf_row (iter + 1) (gsl_vector_get (lib.iterate s).2.x 0)
        (gsl_vector_get (lib.iterate s).2.x 1) (lib.iterate s).2.f], ?_, ?_, ?_, ?_⟩
    · simp [hs]
    · simp [calls, Event.isIterate, Event.isTest]
    · simp [hs]
    · simp
  · refine ⟨[Event.iterate 0,
      Event.test_gradient (lib.test_gradient (lib.iterate s).2.gradient 1e-3),
      Event.printf_row (iter + 1) (gsl_vector_get (lib.iterate s).2.x 0)
        (gsl_vector_get (lib.iterate s).2.x 1) (lib.iterate s).2.f], ?_, ?_, ?_, ?_⟩
    · simp [hs]
    · simp [calls, Event.isIterate, Event.isTest]
    · simp [hs]
    · simp

/-- Rounds `1..n` not terminal and the counter below 100 after them: the loop goes through
them, calling iterate and the gradient test once each per round. -/
theorem my_optimize_loop_quiet (lib : Lib α τ) (s : gsl_multimin_fdfminimizer α τ) :
    ∀ (n : Nat) (iter : Int) (out : List (Event α)),
      (∀ j, 1 ≤ j → j ≤ n → terminalAt lib s j = false) → iter + n < 100 →
      ∃ out1, my_optimize_loop lib iter s out =
          my_optimize_loop lib (iter + n) (stateAfter lib s n) (out ++ out1) ∧
        calls out1 = quietCalls α n ∧ Event.printf_found ∉ out1 := by
  intro n
  induction n with
  | zero =>
    intro iter out _ _
    exact ⟨[], by simp [stateAfter], by simp [calls, quietCalls], by simp⟩
  | succ n ih =>
    intro iter out hq hi
    obtain ⟨out1, h1, hc1, hp1⟩ := ih iter out (fun j h1 h2 => hq j h1 (by omega)) (by omega)
    have ht := hq (n + 1) (by omega) (by omega)
    simp only [terminalAt, iterStatus, testStatus, Nat.add_sub_cancel, Bool.or_eq_false_iff,
      bne_eq_false_iff_eq, stateAfter] at ht
    have h2 := my_optimize_loop_continue lib (iter + n) (stateAfter lib s n) (out ++ out1)
      ht.1 ht.2 (by omega)
    refine ⟨out1 ++ [Event.iterate 0, Event.test_gradient GSL_CONTINUE,
      Event.printf_row (iter + n + 1) (gsl_vector_get (lib.iterate (stateAfter lib s n)).2.x 0)
        (gsl_vector_get (lib.iterate (stateAfter lib s n)).2.x 1)
        (lib.iterate (stateAfter lib s n)).2.f], ?_, ?_, ?_⟩
    · rw [h1, h2]
      simp only [stateAfter, List.append_assoc, Nat.cast_add, Nat.cast_one, add_assoc]
    · simp only [calls, List.filter_append, quietCalls] at hc1 ⊢
      rw [hc1]
      simp [Event.isIterate, Event.isTest]
    · simp [hp1]

/-- The least element of `a..a+n` satisfying `p`, with default `a+n`. -/
theorem find_range_getD (p : Nat → Bool) :
    ∀ (n a : Nat),
      a ≤ ((List.range' a (n + 1)).find? p).getD (a + n) ∧
      ((List.range' a (n + 1)).find? p).getD (a + n) ≤ a + n ∧
      (∀ j, a ≤ j → j < ((List.range' a (n + 1)).find? p).getD (a + n) → p j = false) ∧
      (((List.range' a (n + 1)).find? p).getD (a + n) < a + n →
        p (((List.range' a (n + 1)).find? p).getD (a + n)) = true) := by
  intro n
  induction n with
  | zero =>
    intro a
    by_cases hp : p a = true
    · simp only [List.range', List.find?, hp, Option.getD_some, add_zero, le_refl,
        lt_self_iff_false, false_implies, and_true, true_and]
      intro j h1 h2
      omega
    · simp only [List.range', List.find?, hp, Option.getD_none, add_zero, le_refl,
        lt_self_iff_false, false_implies, and_true, true_and]
      intro j h1 h2
      omega
  | succ n ih =>
    intro a
    by_cases hp : p a = true
    · have : (List.range' a (n + 1 + 1)).find? p = some a := by
        rw [List.range'_succ, List.find?_cons_of_pos _ hp]
      rw [this]
      simp only [Option.getD_some]
      exact ⟨le_refl _, by omega, fun j h1 h2 => absurd h2 (by omega), fun _ => hp⟩
    · have : (List.range' a (n + 1 + 1)).find? p = (List.range' (a + 1) (n + 1)).find? p := by
        rw [List.range'_succ, List.find?_cons_of_neg _ hp]
      rw [this, show a + (n + 1) = a + 1 + n by omega]
      obtain ⟨h1, h2, h3, h4⟩ := ih (a + 1)
      refine ⟨by omega, h2, ?_, h4⟩
      intro j hj1 hj2
      by_cases hja : j = a
      · subst hja
        simpa using hp
      · exact h3 j (by omega) hj2

/-- The index `stopIndex` lies in `1..100`, no round before it is terminal, and the round
at it is terminal unless it is 100. -/
theorem stopIndex_spec (lib : Lib α τ) (s : gsl_multimin_fdfminimizer α τ) :
    1 ≤ stopIndex lib s ∧ stopIndex lib s ≤ 100 ∧
      (∀ j, 1 ≤ j → j < stopIndex lib s → terminalAt lib s j = false) ∧
      (stopIndex lib s < 100 → terminalAt lib s (stopIndex lib s) = true) := by
  have h := find_range_getD (terminalAt lib s) 99 1
  simpa [stopIndex] using h

/-- The whole loop from the counter 0: it ends after round `stopIndex`, with the minimizer
after that many iterate calls, and its calls are those of `stopIndex - 1` quiet rounds and
of the last round, which has no gradient test when its iterate fails. -/
theorem my_optimize_loop_run (lib : Lib α τ) (s : gsl_multimin_fdfminimizer α τ) :
    ∃ out1, my_optimize_loop lib 0 s [] =
        ⟨(stopIndex lib s : Nat),
          if iterStatus lib s (stopIndex lib s) ≠ 0 then iterStatus lib s (stopIndex lib s)
          else testStatus lib s (stopIndex lib s),
          stateAfter lib s (stopIndex lib s), out1⟩ ∧
      calls out1 = quietCalls α (stopIndex lib s - 1) ++
        (if iterStatus lib s (stopIndex lib s) ≠ 0 then
          [Event.iterate (iterStatus lib s (stopIndex lib s))]
        else [Event.iterate 0, Event.test_gradient (testStatus lib s (stopIndex lib s))]) ∧
      (Event.printf_found ∈ out1 ↔ iterStatus lib s (stopIndex lib s) = 0 ∧
        testStatus lib s (stopIndex lib s) = GSL_SUCCESS) ∧
      (iterStatus lib s (stopIndex lib s) = 0 →
        out1.getLast? = some (Event.printf_row (stopIndex lib s : Nat)
          (gsl_vector_get (stateAfter lib s (stopIndex lib s)).x 0)
          (gsl_vector_get (stateAfter lib s (stopIndex lib s)).x 1)
          (stateAfter lib s (stopIndex lib s)).f)) := by
  obtain ⟨hk1, hk2, hq, ht⟩ := stopIndex_spec lib s
  obtain ⟨n, hn⟩ : ∃ n, stopIndex lib s = n + 1 := ⟨stopIndex lib s - 1, by omega⟩
  rw [hn] at hk2 hq ht ⊢
  obtain ⟨out1, h1, hc1, hp1⟩ := my_optimize_loop_quiet lib s n 0 []
    (fun j h1 h2 => hq j h1 (by omega)) (by omega)
  simp only [List.nil_append, zero_add] at h1
  simp only [iterStatus, testStatus, Nat.add_sub_cancel, stateAfter]
  by_cases hf : (lib.iterate (stateAfter lib s n)).1 = 0
  · have hc : ¬ (lib.test_gradient (lib.iterate (stateAfter lib s n)).2.gradient 1e-3 =
        GSL_CONTINUE ∧ (n : Int) + 1 < 100) := by
      rintro ⟨hc1, hc2⟩
      have := ht (by omega)
      simp [terminalAt, iterStatus, testStatus, stateAfter, hf, hc1] at this
    obtain ⟨out2, h2, hc2, hp2, hl2⟩ :=
      my_optimize_loop_exit lib n (stateAfter lib s n) out1 hf hc
    refine ⟨out1 ++ out2, ?_, ?_, ?_, ?_⟩
    · rw [h1, h2]
      simp [hf]
    · simp only [calls, List.filter_append] at hc1 hc2 ⊢
      rw [hc1, hc2]
      simp [hf]
    · simp [hp1, hp2, hf]
    · intro _
      have hne : out2 ≠ [] := by
        intro h0
        simp [h0] at hl2
      rw [List.getLast?_append_of_ne_nil _ hne, hl2]
      simp
  · refine ⟨out1 ++ [Event.iterate (lib.iterate (stateAfter lib s n)).1], ?_, ?_, ?_, ?_⟩
    · rw [h1, my_optimize_loop_break lib n (stateAfter lib s n) out1 hf]
      simp [hf]
    · simp only [calls, List.filter_append] at hc1 ⊢
      rw [hc1]
      simp [hf, Event.isIterate]
    · simp [hp1, hf]
    · intro h0
      exact absurd h0 hf

/-- When every iterate returns 0 and every gradient test `GSL_CONTINUE`, no round is
terminal and `stopIndex` is 100. -/
theorem stopIndex_of_quiet (lib : Lib α τ) (s : gsl_multimin_fdfminimizer α τ)
    (hi : ∀ s1, (lib.iterate s1).1 = 0) (hg : ∀ g, lib.test_gradient g 1e-3 = GSL_CONTINUE) :
    stopIndex lib s = 100 := by
  obtain ⟨-, hk2, -, ht⟩ := stopIndex_spec lib s
  by_contra hne
  have := ht (by omega)
  simp [terminalAt, iterStatus, testStatus, hi, hg] at this

/-- When rounds `1..99` are not terminal, `stopIndex` is 100. -/
theorem stopIndex_of_quiet_run (lib : Lib α τ) (s : gsl_multimin_fdfminimizer α τ)
    (h : ∀ j, 1 ≤ j → j < 100 →
      iterStatus lib s j = 0 ∧ testStatus lib s j = GSL_CONTINUE) :
    stopIndex lib s = 100 := by
  obtain ⟨hk1, hk2, -, ht⟩ := stopIndex_spec lib s
  by_contra hne
  have hlt : stopIndex lib s < 100 := by omega
  have := ht hlt
  simp [terminalAt, h _ hk1 hlt] at this

/-- The iterate of `slowLib` leaves the gradient as it is. -/
theorem slowLib_gradient (s : gsl_multimin_fdfminimizer ℚ Nat) :
    ∀ j, (stateAfter slowLib s j).gradient = s.gradient := by
  intro j
  induction j with
  | zero => rfl
  | succ j ih => simpa [stateAfter, slowLib] using ih

end loop_lemmas

section count_lemmas

variable {α : Type}

/-- Quiet rounds have one iterate call each. -/
theorem iterateCalls_quietCalls (n : Nat) : iterateCalls (quietCalls α n) = n := by
  induction n with
  | zero => simp [iterateCalls, quietCalls]
  | succ n ih =>
    simp only [iterateCalls, quietCalls, List.countP_append] at ih ⊢
    rw [ih]
    simp [Event.isIterate]

/-- Quiet rounds have one gradient test each. -/
theorem testCalls_quietCalls (n : Nat) : testCalls (quietCalls α n) = n := by
  induction n with
  | zero => simp [testCalls, quietCalls]
  | succ n ih =>
    simp only [testCalls, quietCalls, List.countP_append] at ih ⊢
    rw [ih]
    simp [Event.isTest]

/-- The calls of quiet rounds are successful iterates and tests returning
`GSL_CONTINUE`. -/
theorem mem_quietCalls (n : Nat) (e : Event α) (h : e ∈ quietCalls α n) :
    e = Event.iterate 0 ∨ e = Event.test_gradient GSL_CONTINUE := by
  induction n with
  | zero => simp [quietCalls] at h
  | succ n ih =>
    simp only [quietCalls, List.mem_append, List.mem_cons, List.mem_singleton,
      List.not_mem_nil, or_false] at h
    rcases h with h | h | h
    · exact ih h
    · exact Or.inl h
    · exact Or.inr h

/-- Dropping the `printf` events keeps the iterate calls. -/
theorem iterateCalls_calls (out : List (Event α)) :
    iterateCalls (calls out) = iterateCalls out := by
  induction out with
  | nil => rfl
  | cons e out ih =>
    cases e <;>
      simp_all [iterateCalls, calls, List.filter_cons, List.countP_cons, Event.isIterate,
        Event.isTest]

/-- Dropping the `printf` events keeps the gradient tests. -/
theorem testCalls_calls (out : List (Event α)) : testCalls (calls out) = testCalls out := by
  induction out with
  | nil => rfl
  | cons e out ih =>
    cases e <;>
      simp_all [testCalls, calls, List.filter_cons, List.countP_cons, Event.isIterate,
        Event.isTest]

end count_lemmas

/-! ## The driver: the claims -/

section driver_claims

variable {α τ : Type}

/-- C5: whatever the iterate step and the gradient test do, a run of `my_optimize` makes
at most 100 iterate calls, as many as the counter `iter` shows at the end.  When every
iterate call of the run returned 0 and every gradient test of the run returned
`GSL_CONTINUE`, the run made exactly 100 iterate calls and ended with the counter at 100
and the status `GSL_CONTINUE`; exactly 100 iterate calls are made already when rounds
`1..99` are not terminal. -/
theorem my_optimize_at_most_100 [Add α] [Sub α] [Mul α] [OfScientific α] (lib : Lib α τ)
    (par : List α) (x : gsl_vector α) :
    iterateCalls (my_optimize lib par x).locals.out ≤ 100 ∧
    (my_optimize lib par x).locals.iter =
      (iterateCalls (my_optimize lib par x).locals.out : Nat) ∧
    ((∀ st, Event.iterate st ∈ (my_optimize lib par x).locals.out → st = 0) →
      (∀ st, Event.test_gradient st ∈ (my_optimize lib par x).locals.out →
        st = GSL_CONTINUE) →
      iterateCalls (my_optimize lib par x).locals.out = 100 ∧
      (my_optimize lib par x).locals.iter = 100 ∧
      (my_optimize lib par x).locals.status = GSL_CONTINUE) ∧
    ((∀ j, 1 ≤ j → j < 100 →
        iterStatus lib (lib.set (lib.alloc 2) (my_func par) x 0.01 1e-4) j = 0 ∧
        testStatus lib (lib.set (lib.alloc 2) (my_func par) x 0.01 1e-4) j = GSL_CONTINUE) →
      iterateCalls (my_optimize lib par x).locals.out = 100 ∧
      (my_optimize lib par x).locals.iter = 100) := by
  obtain ⟨out1, hr, hc, -, -⟩ :=
    my_optimize_loop_run lib (lib.set (lib.alloc 2) (my_func par) x 0.01 1e-4)
  obtain ⟨hk1, hk2, -, ht⟩ :=
    stopIndex_spec lib (lib.set (lib.alloc 2) (my_func par) x 0.01 1e-4)
  have hn : iterateCalls out1 =
      stopIndex lib (lib.set (lib.alloc 2) (my_func par) x 0.01 1e-4) := by
    rw [← iterateCalls_calls, hc]
    simp only [iterateCalls, List.countP_append]
    have := iterateCalls_quietCalls (α := α)
      (stopIndex lib (lib.set (lib.alloc 2) (my_func par) x 0.01 1e-4) - 1)
    simp only [iterateCalls] at this
    rw [this]
    split <;> simp [Event.isIterate] <;> omega
  simp only [my_optimize, hr, hn]
  refine ⟨hk2, trivial, ?_, ?_⟩
  · intro hi hg
    have hf : iterStatus lib (lib.set (lib.alloc 2) (my_func par) x 0.01 1e-4)
        (stopIndex lib (lib.set (lib.alloc 2) (my_func par) x 0.01 1e-4)) = 0 := by
      by_contra hf
      apply hf
      apply hi
      have hm : Event.iterate (iterStatus lib (lib.set (lib.alloc 2) (my_func par) x 0.01 1e-4)
          (stopIndex lib (lib.set (lib.alloc 2) (my_func par) x 0.01 1e-4))) ∈
          calls out1 := by
        rw [hc]
        simp [hf]
      exact (List.mem_filter.mp hm).1
    have hte : testStatus lib (lib.set (lib.alloc 2) (my_func par) x 0.01 1e-4)
        (stopIndex lib (lib.set (lib.alloc 2) (my_func par) x 0.01 1e-4)) = GSL_CONTINUE := by
      apply hg
      have hm : Event.test_gradient
          (testStatus lib (lib.set (lib.alloc 2) (my_func par) x 0.01 1e-4)
            (stopIndex lib (lib.set (lib.alloc 2) (my_func par) x 0.01 1e-4))) ∈
          calls out1 := by
        rw [hc]
        simp [hf]
      exact (List.mem_filter.mp hm).1
    have h100 : stopIndex lib (lib.set (lib.alloc 2) (my_func par) x 0.01 1e-4) = 100 := by
      by_contra hne
      have := ht (by omega)
      simp [terminalAt, hf, hte] at this
    rw [h100] at hf hte ⊢
    simp [hf, hte]
  · intro h
    rw [stopIndex_of_quiet_run lib _ h]
    simp

/-- Witness of C5: the run of `my_optimize` with `slowLib`, whose gradient test would
succeed on a zero gradient but meets the gradient `(1, 1)` in every round: every iterate
call of the run returns 0 and every gradient test of the run `GSL_CONTINUE`. -/
theorem my_optimize_at_most_100_witness :
    (∀ st, Event.iterate st ∈ (my_optimize slowLib [1, 2, 3, 4, 5] ⟨[0, 0]⟩).locals.out →
      st = 0) ∧
    (∀ st, Event.test_gradient st ∈
      (my_optimize slowLib [1, 2, 3, 4, 5] ⟨[0, 0]⟩).locals.out → st = GSL_CONTINUE) ∧
    slowLib.test_gradient ⟨[0, 0]⟩ 1e-3 = GSL_SUCCESS ∧
    iterateCalls (my_optimize slowLib [1, 2, 3, 4, 5] ⟨[0, 0]⟩).locals.out = 100 ∧
    (my_optimize slowLib [1, 2, 3, 4, 5] ⟨[0, 0]⟩).locals.iter = 100 ∧
    (my_optimize slowLib [1, 2, 3, 4, 5] ⟨[0, 0]⟩).locals.status = GSL_CONTINUE := by
  have hq : ∀ j,
      iterStatus slowLib
        (slowLib.set (slowLib.alloc 2) (my_func [1, 2, 3, 4, 5]) ⟨[0, 0]⟩ 0.01 1e-4) j = 0 ∧
      testStatus slowLib
        (slowLib.set (slowLib.alloc 2) (my_func [1, 2, 3, 4, 5]) ⟨[0, 0]⟩ 0.01 1e-4) j =
          GSL_CONTINUE := by
    intro j
    refine ⟨rfl, ?_⟩
    rw [testStatus, slowLib_gradient]
    simp [slowLib, GSL_CONTINUE, GSL_SUCCESS]
  have hs : (my_optimize slowLib [1, 2, 3, 4, 5] ⟨[0, 0]⟩).locals = my_optimize_loop slowLib 0
      (slowLib.set (slowLib.alloc 2) (my_func [1, 2, 3, 4, 5]) ⟨[0, 0]⟩ 0.01 1e-4) [] := rfl
  obtain ⟨out1, hr, hc, -, -⟩ := my_optimize_loop_run slowLib
    (slowLib.set (slowLib.alloc 2) (my_func [1, 2, 3, 4, 5]) ⟨[0, 0]⟩ 0.01 1e-4)
  simp only [(hq _).1, (hq _).2, ne_eq, not_true_eq_false, if_false] at hc
  have hmem : ∀ e ∈ calls out1,
      e = Event.iterate 0 ∨ e = Event.test_gradient GSL_CONTINUE := by
    intro e he
    rw [hc, List.mem_append] at he
    rcases he with he | he
    · exact mem_quietCalls _ e he
    · simpa using he
  have hi : ∀ st,
      Event.iterate st ∈ (my_optimize slowLib [1, 2, 3, 4, 5] ⟨[0, 0]⟩).locals.out →
        st = 0 := by
    intro st h
    rw [hs, hr] at h
    rcases hmem _ (List.mem_filter.mpr ⟨h, by simp [Event.isIterate]⟩) with h1 | h1
    · exact Event.iterate.inj h1
    · cases h1
  have hg : ∀ st, Event.test_gradient st ∈
      (my_optimize slowLib [1, 2, 3, 4, 5] ⟨[0, 0]⟩).locals.out → st = GSL_CONTINUE := by
    intro st h
    rw [hs, hr] at h
    rcases hmem _ (List.mem_filter.mpr ⟨h, by simp [Event.isTest]⟩) with h1 | h1
    · cases h1
    · exact Event.test_gradient.inj h1
  exact ⟨hi, hg, by simp [slowLib],
    (my_optimize_at_most_100 slowLib [1, 2, 3, 4, 5] ⟨[0, 0]⟩).2.2.1 hi hg⟩

/-- C10: the loop, entered with the counter at 0, ends after round `k = stopIndex`, the
least index in `1..100` whose iterate returns a nonzero status or whose gradient test
returns a status other than `GSL_CONTINUE` (100 if there is none): it makes exactly `k`
iterate calls, and its library calls are an iterate and a gradient test for each of the
`k - 1` rounds before, then the iterate of round `k`, followed by one gradient test when
that iterate succeeded and by nothing when it failed. -/
theorem my_optimize_loop_terminal [OfScientific α] (lib : Lib α τ)
    (s : gsl_multimin_fdfminimizer α τ) :
    (1 ≤ stopIndex lib s ∧ stopIndex lib s ≤ 100) ∧
    (∀ j, 1 ≤ j → j < stopIndex lib s →
      iterStatus lib s j = 0 ∧ testStatus lib s j = GSL_CONTINUE) ∧
    (stopIndex lib s < 100 → iterStatus lib s (stopIndex lib s) ≠ 0 ∨
      testStatus lib s (stopIndex lib s) ≠ GSL_CONTINUE) ∧
    iterateCalls (my_optimize_loop lib 0 s []).out = stopIndex lib s ∧
    (my_optimize_loop lib 0 s []).iter = (stopIndex lib s : Nat) ∧
    testCalls (my_optimize_loop lib 0 s []).out =
      (if iterStatus lib s (stopIndex lib s) ≠ 0 then stopIndex lib s - 1
        else stopIndex lib s) ∧
    calls (my_optimize_loop lib 0 s []).out = quietCalls α (stopIndex lib s - 1) ++
      (if iterStatus lib s (stopIndex lib s) ≠ 0 then
        [Event.iterate (iterStatus lib s (stopIndex lib s))]
      else [Event.iterate 0, Event.test_gradient (testStatus lib s (stopIndex lib s))]) := by
  obtain ⟨out1, hr, hc, -, -⟩ := my_optimize_loop_run lib s
  obtain ⟨hk1, hk2, hq, ht⟩ := stopIndex_spec lib s
  have hqi := iterateCalls_quietCalls (α := α) (stopIndex lib s - 1)
  have hqt := testCalls_quietCalls (α := α) (stopIndex lib s - 1)
  simp only [iterateCalls] at hqi
  simp only [testCalls] at hqt
  refine ⟨⟨hk1, hk2⟩, ?_, ?_, ?_, ?_, ?_, ?_⟩
  · intro j h1 h2
    have := hq j h1 h2
    simpa [terminalAt] using this
  · intro h
    have := ht h
    simp only [terminalAt, Bool.or_eq_true, bne_iff_ne, ne_eq] at this
    exact this
  · rw [hr, ← iterateCalls_calls, hc]
    simp only [iterateCalls, List.countP_append, hqi]
    split <;> simp [Event.isIterate] <;> omega
  · rw [hr]
  · rw [hr, ← testCalls_calls, hc]
    simp only [testCalls, List.countP_append, hqt]
    split <;> simp [Event.isTest]
    omega
  · rw [hr, hc]

/-- C6, as stated, fails: with `failLib` the run ends on the first iterate, which returns
the error status 27; with `stallLib` it ends after 100 rounds with the status
`GSL_CONTINUE`; with `jumpLib` it converges in its first round; `my_optimize` returns the
same value for all three. -/
theorem my_optimize_failure_not_reported :
    (my_optimize failLib [1, 2, 3, 4, 5] ⟨[0, 0]⟩).locals.out = [Event.iterate 27] ∧
    (my_optimize failLib [1, 2, 3, 4, 5] ⟨[0, 0]⟩).locals.status = 27 ∧
    (my_optimize jumpLib [1, 2, 3, 4, 5] ⟨[0, 0]⟩).locals.out =
      [Event.iterate 0, Event.test_gradient GSL_SUCCESS, Event.printf_found,
        Event.printf_row 1 (some 1) (some 2) 5] ∧
    (my_optimize jumpLib [1, 2, 3, 4, 5] ⟨[0, 0]⟩).locals.status = GSL_SUCCESS ∧
    (my_optimize stallLib [1, 2, 3, 4, 5] ⟨[0, 0]⟩).locals.iter = 100 ∧
    (my_optimize stallLib [1, 2, 3, 4, 5] ⟨[0, 0]⟩).locals.status = GSL_CONTINUE ∧
    (my_optimize failLib [1, 2, 3, 4, 5] ⟨[0, 0]⟩).ret =
      (my_optimize jumpLib [1, 2, 3, 4, 5] ⟨[0, 0]⟩).ret ∧
    (my_optimize stallLib [1, 2, 3, 4, 5] ⟨[0, 0]⟩).ret =
      (my_optimize jumpLib [1, 2, 3, 4, 5] ⟨[0, 0]⟩).ret := by
  have hs : my_optimize stallLib [1, 2, 3, 4, 5] ⟨[0, 0]⟩ =
      ⟨EXIT_SUCCESS, [1, 2, 3, 4, 5], ⟨[0, 0]⟩, my_optimize_loop stallLib 0
        (stallLib.set (stallLib.alloc 2) (my_func [1, 2, 3, 4, 5]) ⟨[0, 0]⟩ 0.01 1e-4) []⟩ :=
    rfl
  obtain ⟨out1, hr, -, -, -⟩ := my_optimize_loop_run stallLib
    (stallLib.set (stallLib.alloc 2) (my_func [1, 2, 3, 4, 5]) ⟨[0, 0]⟩ 0.01 1e-4)
  rw [stopIndex_of_quiet stallLib _ (fun _ => rfl) (fun _ => rfl)] at hr
  refine ⟨?_, ?_, ?_, ?_, ?_, ?_, rfl, rfl⟩
  · simp [my_optimize, my_optimize_loop_break, failLib]
  · simp [my_optimize, my_optimize_loop_break, failLib]
  · rw [my_optimize, my_optimize_loop]
    simp [jumpLib, gsl_vector_get, GSL_SUCCESS, GSL_CONTINUE]
  · rw [my_optimize, my_optimize_loop]
    simp [jumpLib, gsl_vector_get, GSL_SUCCESS, GSL_CONTINUE]
  · rw [hs, hr]
    rfl
  · rw [hs, hr]
    simp [iterStatus, testStatus, stallLib]

/-- C6, amended: every run of `my_optimize` returns `EXIT_SUCCESS`; the final status is
not returned, and the line `Minimum found at:` is printed exactly in the runs that end
with the status `GSL_SUCCESS`. -/
theorem my_optimize_returns_exit_success [Add α] [Sub α] [Mul α] [OfScientific α]
    (lib : Lib α τ) (par : List α) (x : gsl_vector α) :
    (my_optimize lib par x).ret = EXIT_SUCCESS ∧
    (Event.printf_found ∈ (my_optimize lib par x).locals.out ↔
      (my_optimize lib par x).locals.status = GSL_SUCCESS) := by
  obtain ⟨out1, hr, -, hp, -⟩ :=
    my_optimize_loop_run lib (lib.set (lib.alloc 2) (my_func par) x 0.01 1e-4)
  refine ⟨rfl, ?_⟩
  simp only [my_optimize, hr, hp]
  by_cases hf : iterStatus lib (lib.set (lib.alloc 2) (my_func par) x 0.01 1e-4)
      (stopIndex lib (lib.set (lib.alloc 2) (my_func par) x 0.01 1e-4)) = 0
  · simp [hf]
  · simp [hf, GSL_SUCCESS]

/-- C7, as stated, fails: with `jumpLib`, started at `(0, 0)`, the minimizer ends at the
point `(1, 2)` while the caller's vector still holds `(0, 0)`. -/
theorem my_optimize_point_not_returned :
    (my_optimize jumpLib [1, 2, 3, 4, 5] ⟨[0, 0]⟩).locals.s.x = ⟨[1, 2]⟩ ∧
    (my_optimize jumpLib [1, 2, 3, 4, 5] ⟨[0, 0]⟩).x = ⟨[0, 0]⟩ ∧
    (my_optimize jumpLib [1, 2, 3, 4, 5] ⟨[0, 0]⟩).x ≠
      (my_optimize jumpLib [1, 2, 3, 4, 5] ⟨[0, 0]⟩).locals.s.x := by
  have h : (my_optimize jumpLib [1, 2, 3, 4, 5] ⟨[0, 0]⟩).locals.s.x = ⟨[1, 2]⟩ := by
    rw [my_optimize, my_optimize_loop]
    simp [jumpLib, GSL_SUCCESS, GSL_CONTINUE]
  refine ⟨h, rfl, ?_⟩
  rw [h]
  simp [my_optimize]

/-- C7, amended: when `my_optimize` returns, the caller's vector `x` and block `par` hold
what they held at the call; the point the minimizer reached is in the freed minimizer, and
when no iterate call failed it is what the last printed row shows. -/
theorem my_optimize_leaves_x [Add α] [Sub α] [Mul α] [OfScientific α]
    (lib : Lib α τ) (par : List α) (x : gsl_vector α) :
    (my_optimize lib par x).x = x ∧ (my_optimize lib par x).par = par ∧
    ((∀ st, Event.iterate st ∈ (my_optimize lib par x).locals.out → st = 0) →
      (my_optimize lib par x).locals.out.getLast? =
        some (Event.printf_row (my_optimize lib par x).locals.iter
          (gsl_vector_get (my_optimize lib par x).locals.s.x 0)
          (gsl_vector_get (my_optimize lib par x).locals.s.x 1)
          (my_optimize lib par x).locals.s.f)) := by
  obtain ⟨out1, hr, hc, -, hl⟩ :=
    my_optimize_loop_run lib (lib.set (lib.alloc 2) (my_func par) x 0.01 1e-4)
  refine ⟨rfl, rfl, ?_⟩
  simp only [my_optimize, hr]
  intro hall
  apply hl
  by_contra hf
  apply hf
  apply hall
  have hm : Event.iterate (iterStatus lib (lib.set (lib.alloc 2) (my_func par) x 0.01 1e-4)
      (stopIndex lib (lib.set (lib.alloc 2) (my_func par) x 0.01 1e-4))) ∈ calls out1 := by
    rw [hc]
    simp [hf]
  exact (List.mem_filter.mp hm).1

/-- Witness of C7, amended: the run with `jumpLib` from `(0, 0)`, whose only iterate call
succeeds; the last row printed shows the point `(1, 2)`. -/
theorem my_optimize_leaves_x_witness :
    (∀ st, Event.iterate st ∈ (my_optimize jumpLib [1, 2, 3, 4, 5] ⟨[0, 0]⟩).locals.out →
      st = 0) ∧
    (my_optimize jumpLib [1, 2, 3, 4, 5] ⟨[0, 0]⟩).x = ⟨[0, 0]⟩ ∧
    (my_optimize jumpLib [1, 2, 3, 4, 5] ⟨[0, 0]⟩).locals.out.getLast? =
      some (Event.printf_row (my_optimize jumpLib [1, 2, 3, 4, 5] ⟨[0, 0]⟩).locals.iter
        (gsl_vector_get (my_optimize jumpLib [1, 2, 3, 4, 5] ⟨[0, 0]⟩).locals.s.x 0)
        (gsl_vector_get (my_optimize jumpLib [1, 2, 3, 4, 5] ⟨[0, 0]⟩).locals.s.x 1)
        (my_optimize jumpLib [1, 2, 3, 4, 5] ⟨[0, 0]⟩).locals.s.f) := by
  have h : ∀ st,
      Event.iterate st ∈ (my_optimize jumpLib [1, 2, 3, 4, 5] ⟨[0, 0]⟩).locals.out →
        st = 0 := by
    rw [my_optimize, my_optimize_loop]
    simp [jumpLib, GSL_SUCCESS, GSL_CONTINUE]
  exact ⟨h, (my_optimize_leaves_x jumpLib [1, 2, 3, 4, 5] ⟨[0, 0]⟩).1,
    (my_optimize_leaves_x jumpLib [1, 2, 3, 4, 5] ⟨[0, 0]⟩).2.2 h⟩

end driver_claims

end Minipol
